import Mathlib

/-
  Verification development for the RUNK repository (src/RUNK.go, first draft,
  the one containing the full conversion engine: fromNumber / fromSint /
  fromUint / fromFloat / sintToSint / ... / ConvertNum / MaxNum / MinNum /
  Max / Min / Abs and the math wrappers).

  Modelling conventions:
  * The native-width kinds int, uint and uintptr are modelled at 64 bits
    (strconv.IntSize = 64, the common platform).
  * Go integer values are modelled as Lean Int values constrained to the
    kind's range; raw (wrapping) Go conversions are modelled explicitly.
  * Go float64 values are modelled by GoFloat: NaN, the two infinities, or a
    finite rational value.  The conversion engine only consumes floats
    (classification, comparison, rounding); where the Go code creates a
    float from an integer (float64(from), the flmax/flmin bounds) the IEEE
    round-to-nearest-even conversion to 53-bit significand is modelled
    exactly by roundIntSig.  Narrowing to float32 is modelled by the IEEE
    round-to-nearest-even rounding at 24-bit significand with the float32
    exponent range, overflow giving a signed infinity.
-/

namespace RUNK

/- The Batteries rational arithmetic is marked irreducible, which blocks
kernel evaluation inside decide proofs; restore the default reducibility
for this verification development (the definitions are unchanged). -/
attribute [local semireducible] Rat.add Rat.mul Rat.inv Rat.sub Rat.ofScientific

/-- The supported numeric kinds of the library (the Number constraint of
RUNK.go): signed 8/16/32/64/native integers, unsigned 8/16/32/64/native
integers, uintptr, and the two float widths.  byte is an alias of uint8 and
is not listed separately. -/
inductive NKind where
  | int | int8 | int16 | int32 | int64
  | uint | uint8 | uint16 | uint32 | uint64 | uintptr
  | float32 | float64
deriving DecidableEq, Repr

/-- k is one of the signed integer kinds (the Sint interface). -/
def isSintK : NKind → Bool
  | .int | .int8 | .int16 | .int32 | .int64 => true
  | _ => false

/-- k is one of the unsigned integer kinds (the Uint interface). -/
def isUintK : NKind → Bool
  | .uint | .uint8 | .uint16 | .uint32 | .uint64 | .uintptr => true
  | _ => false

/-- k is a float kind (the Float interface). -/
def isFloatK : NKind → Bool
  | .float32 | .float64 => true
  | _ => false

/-- k is an integer kind (the Int interface). -/
def isIntK (k : NKind) : Bool := isSintK k || isUintK k

/-- Bit width of the kind; int, uint and uintptr are 64 bits here. -/
def bitsOf : NKind → Nat
  | .int8 | .uint8 => 8
  | .int16 | .uint16 => 16
  | .int32 | .uint32 | .float32 => 32
  | _ => 64

/-- The MinNum constant table of RUNK.go restricted to the integer kinds:
MinInt, MinInt8, ..., 0 for every unsigned kind.  (Float kinds have their
own rational bound table below; this Int-valued table returns 0 for them
and is never consulted there.) -/
def MinNumI : NKind → Int
  | .int => -(2 ^ 63)
  | .int8 => -(2 ^ 7)
  | .int16 => -(2 ^ 15)
  | .int32 => -(2 ^ 31)
  | .int64 => -(2 ^ 63)
  | .uint | .uint8 | .uint16 | .uint32 | .uint64 | .uintptr => 0
  | .float32 | .float64 => 0

/-- The MaxNum constant table of RUNK.go restricted to the integer kinds:
MaxInt = 2^63-1, MaxUint8 = 255, and so on. -/
def MaxNumI : NKind → Int
  | .int => 2 ^ 63 - 1
  | .int8 => 2 ^ 7 - 1
  | .int16 => 2 ^ 15 - 1
  | .int32 => 2 ^ 31 - 1
  | .int64 => 2 ^ 63 - 1
  | .uint => 2 ^ 64 - 1
  | .uint8 => 2 ^ 8 - 1
  | .uint16 => 2 ^ 16 - 1
  | .uint32 => 2 ^ 32 - 1
  | .uint64 => 2 ^ 64 - 1
  | .uintptr => 2 ^ 64 - 1
  | .float32 | .float64 => 0

/-- MaxFloat64 = (2 - 2^-52) * 2^1023 = (2^53 - 1) * 2^971, as an exact
rational. -/
def maxF64q : ℚ := (((2 ^ 53 - 1) * 2 ^ 971 : ℕ) : ℚ)

/-- MaxFloat32 = (2 - 2^-23) * 2^127 = (2^24 - 1) * 2^104, as an exact
rational. -/
def maxF32q : ℚ := (((2 ^ 24 - 1) * 2 ^ 104 : ℕ) : ℚ)

/-- The minimum bound of a kind in the canonical rational comparison
domain: the integer minimum for integer kinds, MinFloat32/MinFloat64 for
the float kinds (MinNum of RUNK.go). -/
def kindMinQ (k : NKind) : ℚ :=
  match k with
  | .float32 => -maxF32q
  | .float64 => -maxF64q
  | k => (MinNumI k : ℚ)

/-- The maximum bound of a kind in the canonical rational comparison
domain (MaxNum of RUNK.go). -/
def kindMaxQ (k : NKind) : ℚ :=
  match k with
  | .float32 => maxF32q
  | .float64 => maxF64q
  | k => (MaxNumI k : ℚ)

/-- v is inside the representable range of integer kind k. -/
def inRangeI (k : NKind) (v : Int) : Prop := MinNumI k ≤ v ∧ v ≤ MaxNumI k

instance (k : NKind) (v : Int) : Decidable (inRangeI k v) :=
  inferInstanceAs (Decidable (And _ _))

/-- A Go floating-point datum: NaN, an infinity, or a finite value.  The
finite payload is an exact rational; the conversion engine only consumes
floats, and everywhere the Go code constructs one the construction is
modelled with the appropriate IEEE rounding. -/
inductive GoFloat where
  | nan
  | posInf
  | negInf
  | finite (q : ℚ)
deriving DecidableEq

/-- Go float comparison x < y: false whenever either side is NaN. -/
def gfLT : GoFloat → GoFloat → Bool
  | .nan, _ => false
  | _, .nan => false
  | .negInf, .negInf => false
  | .negInf, _ => true
  | _, .negInf => false
  | .posInf, _ => false
  | .finite _, .posInf => true
  | .finite a, .finite b => decide (a < b)

/-- Go float comparison x > y. -/
def gfGT (x y : GoFloat) : Bool := gfLT y x

/-- Go float negation. -/
def gfNeg : GoFloat → GoFloat
  | .nan => .nan
  | .posInf => .negInf
  | .negInf => .posInf
  | .finite q => .finite (-q)

/-- math.IsNaN. -/
def gfIsNaN : GoFloat → Bool
  | .nan => true
  | _ => false

/-- math.IsInf(x, 1). -/
def gfIsPosInf : GoFloat → Bool
  | .posInf => true
  | _ => false

/-- math.IsInf(x, -1). -/
def gfIsNegInf : GoFloat → Bool
  | .negInf => true
  | _ => false

/-- Truncation of a rational toward zero (the Go conversion of a float to
an integer discards the fraction). -/
def qtrunc (q : ℚ) : Int := if 0 ≤ q then ⌊q⌋ else ⌈q⌉

/-- Rounding to the nearest integer with halves away from zero (the
behaviour of math.Round). -/
def qRoundHalfAway (q : ℚ) : Int :=
  if 0 ≤ q then ⌊q + 1 / 2⌋ else -⌊-q + 1 / 2⌋

/-- Rounding a rational to the nearest integer with ties to even (the
behaviour of math.RoundToEven, and the tie rule of IEEE rounding). -/
def rneQ (q : ℚ) : Int :=
  let n := ⌊q⌋
  if q - n > 1 / 2 then n + 1
  else if q - n < 1 / 2 then n
  else if n % 2 = 0 then n else n + 1

/-- math.Round on a Go float. -/
def mathRound : GoFloat → GoFloat
  | .finite q => .finite (qRoundHalfAway q)
  | x => x

/-- math.RoundToEven on a Go float. -/
def mathRoundToEven : GoFloat → GoFloat
  | .finite q => .finite (rneQ q)
  | x => x

/-- math.Trunc on a Go float. -/
def mathTrunc : GoFloat → GoFloat
  | .finite q => .finite (qtrunc q)
  | x => x

/-- Fuel-bounded floor base-2 logarithm, written by structural recursion
on the fuel so that kernel evaluation works inside decide proofs (the
library Nat.log2 uses well-founded recursion, which the kernel does not
reduce). -/
def log2fuel : Nat → Nat → Nat
  | 0, _ => 0
  | fuel + 1, n => if n < 2 then 0 else log2fuel fuel (n / 2) + 1

/-- Floor base-2 logarithm.  The fuel 2200 exceeds the bit length of the
numerator and denominator of every float64 and float32 value (at most
about 1080 bits) and of every supported integer value, so on every value
this development evaluates it agrees with the true logarithm. -/
def nlog2 (n : Nat) : Nat := log2fuel 2200 n

/-- IEEE round-to-nearest-even of an integer to a floating significand of
prec bits: the exact value of the Go conversion of an integer to float64
(prec = 53) or float32 (prec = 24).  Values of fewer than prec significant
bits are exact; otherwise the low bits are rounded, ties to even. -/
def roundIntSig (prec : Nat) (n : Int) : Int :=
  let a := n.natAbs
  if a < 2 ^ prec then n
  else
    let e := nlog2 a + 1 - prec
    let q := a / 2 ^ e
    let r := a % 2 ^ e
    let m := if r > 2 ^ (e - 1) || (r == 2 ^ (e - 1) && q % 2 == 1) then q + 1 else q
    (if n < 0 then -1 else 1) * ((m : Int) * 2 ^ e)

/-- The exact rational value of float64(n) for an integer n (all integer
kinds fit in the float64 exponent range, so no overflow occurs). -/
def f64ofInt (n : Int) : ℚ := (roundIntSig 53 n : ℚ)

/-- 2^s as a rational, for a possibly negative integer exponent. -/
def pow2q (s : Int) : ℚ :=
  if 0 ≤ s then ((2 ^ s.toNat : ℕ) : ℚ) else 1 / ((2 ^ (-s).toNat : ℕ) : ℚ)

/-- Floor of the base-2 logarithm of the absolute value of a nonzero
rational. -/
def qlog2 (q : ℚ) : Int :=
  let e : Int := (nlog2 q.num.natAbs : Int) - (nlog2 q.den : Int)
  if |q| < pow2q e then e - 1 else e

/-- IEEE round-to-nearest-even of a rational at significand precision prec
with minimum (normal) exponent emin: the rounded value with unbounded
upper exponent range.  Used to model the float64-to-float32 narrowing. -/
def roundQPrec (prec : Nat) (emin : Int) (q : ℚ) : ℚ :=
  if q = 0 then 0
  else
    let e := max (qlog2 q) emin
    let s : Int := e - (prec - 1 : Nat)
    (rneQ (q / pow2q s) : ℚ) * pow2q s

/-- The Go narrowing conversion float32(x) of a float64 value: IEEE
round-to-nearest-even at 24-bit significand, emin -126 (subnormals
included), values rounding to at least 2^128 in magnitude giving the
signed infinity.  NaN and infinities pass through. -/
def narrow32 (x : GoFloat) : GoFloat :=
  match x with
  | .finite q =>
    let r := roundQPrec 24 (-126) q
    if maxF32q < |r| then (if q < 0 then .negInf else .posInf) else .finite r
  | x => x

/-- The raw (wrapping) Go conversion of an integer value into integer kind
k: reduce modulo 2^width, reinterpreting the upper half of the residues as
negative for the signed kinds.  This is the unchecked To(from) conversion
that the engine uses when every type check misses. -/
def wrapI (k : NKind) (v : Int) : Int :=
  let w := bitsOf k
  let m := v % (2 ^ w : Int)
  if isSintK k ∧ 2 ^ (w - 1) ≤ m then m - 2 ^ w else m

/-- The Go conversion of a float64 value into integer kind k (the To(r)
and To(from) casts inside floatToSint/floatToUint): truncation toward zero
when that is representable in k.  For an out-of-range or non-finite input
the Go specification makes the result implementation-dependent; the amd64
behaviour is modelled (signed kinds give their minimum, unsigned kinds
give 0).  Either way the result is some value of the target kind, which is
all the saturation claims rely on. -/
def castFloatToI (k : NKind) (x : GoFloat) : Int :=
  match x with
  | .finite q =>
    let t := qtrunc q
    if MinNumI k ≤ t ∧ t ≤ MaxNumI k then t
    else if isSintK k then MinNumI k else 0
  | _ => if isSintK k then MinNumI k else 0

/-- sintToSint (RUNK.go 289-300): saturating conversion of a signed
integer value to a signed integer target kind.  The Go comparisons
int64(from) > int64(max) and int64(from) < int64(min) are exact and are
modelled directly on Int. -/
def sintToSint (toK : NKind) (fromv : Int) : Int :=
  let mx := MaxNumI toK
  if fromv > mx then mx
  else
    let mn := MinNumI toK
    if fromv < mn then mn else fromv

/-- sintToUint (RUNK.go 302-311): negative sources give To(0); otherwise
the comparison uint64(from) > uint64(max) is exact (from is nonnegative)
and the in-range To(from) is exact. -/
def sintToUint (toK : NKind) (fromv : Int) : Int :=
  if fromv < 0 then 0
  else
    let mx := MaxNumI toK
    if fromv > mx then mx else fromv

/-- uintToSint (RUNK.go 419-425): the comparison uint64(from) >
uint64(max) is exact for an unsigned source and a nonnegative max. -/
def uintToSint (toK : NKind) (fromv : Int) : Int :=
  let mx := MaxNumI toK
  if fromv > mx then mx else fromv

/-- uintToUint (RUNK.go 427-433). -/
def uintToUint (toK : NKind) (fromv : Int) : Int :=
  let mx := MaxNumI toK
  if fromv > mx then mx else fromv

/-- sintToFloat (RUNK.go 313-315): the Go conversion To(from) of an
integer to a float kind, IEEE round-to-nearest-even at the target
significand width (53 bits for float64, 24 for float32); no overflow is
possible from the supported integer ranges. -/
def sintToFloat (toK : NKind) (v : Int) : GoFloat :=
  .finite ((roundIntSig (if toK = .float32 then 24 else 53) v : Int) : ℚ)

/-- uintToFloat (RUNK.go 435-437): same conversion as sintToFloat. -/
def uintToFloat (toK : NKind) (v : Int) : GoFloat := sintToFloat toK v

/-- floatToSint (RUNK.go 544-561): fl := float64(from); r := roundMode(fl);
NaN gives To(0); +Inf, or fl or r above float64(max), gives max; -Inf, or
fl or r below float64(min), gives min; otherwise To(r). -/
def floatToSint (toK : NKind) (x : GoFloat) (roundMode : GoFloat → GoFloat) : Int :=
  let fl := x
  let r := roundMode fl
  if gfIsNaN fl then 0
  else
    let mx := MaxNumI toK
    let flmax : GoFloat := .finite (f64ofInt mx)
    if gfIsPosInf fl || gfGT fl flmax || gfGT r flmax then mx
    else
      let mn := MinNumI toK
      let flmin : GoFloat := .finite (f64ofInt mn)
      if gfIsNegInf fl || gfLT fl flmin || gfLT r flmin then mn
      else castFloatToI toK r

/-- floatToUint (RUNK.go 563-575): NaN, -Inf, or fl or r negative, gives
To(0); +Inf, or fl or r above float64(max), gives max; otherwise the
function returns To(from) — the original value truncated — not To(r). -/
def floatToUint (toK : NKind) (x : GoFloat) (roundMode : GoFloat → GoFloat) : Int :=
  let fl := x
  let r := roundMode fl
  if gfIsNaN fl || gfIsNegInf fl || gfLT fl (.finite 0) || gfLT r (.finite 0) then 0
  else
    let mx := MaxNumI toK
    let flmax : GoFloat := .finite (f64ofInt mx)
    if gfIsPosInf fl || gfGT fl flmax || gfGT r flmax then mx
    else castFloatToI toK fl

/-- floatToFloat (RUNK.go 577-579): the native Go conversion To(from)
between float kinds; widening is exact, narrowing to float32 applies the
IEEE narrowing with overflow to the signed infinity. -/
def floatToFloat (toK : NKind) (x : GoFloat) : GoFloat :=
  if toK = .float32 then narrow32 x else x

/-- A runtime value of the library: an integer-kind value or a float-kind
value. -/
inductive GoNum where
  | i (k : NKind) (v : Int)
  | f (k : NKind) (x : GoFloat)
deriving DecidableEq

/-- fromSint (RUNK.go 187-241) for a built-in (non-named) target type: the
direct type switch on the target dispatches signed targets to sintToInt
and then sintToSint, unsigned ones to sintToUint, float ones to
sintToFloat.  (sintToInt, RUNK.go 243-287, only re-dispatches.) -/
def fromSint (toK : NKind) (v : Int) : GoNum :=
  if isSintK toK then .i toK (sintToSint toK v)
  else if isUintK toK then .i toK (sintToUint toK v)
  else .f toK (sintToFloat toK v)

/-- fromUint (RUNK.go 317-371) for a built-in target type, via uintToInt
(RUNK.go 373-417). -/
def fromUint (toK : NKind) (v : Int) : GoNum :=
  if isSintK toK then .i toK (uintToSint toK v)
  else if isUintK toK then .i toK (uintToUint toK v)
  else .f toK (uintToFloat toK v)

/-- fromFloat (RUNK.go 439-496) for a built-in target type, via floatToInt
(RUNK.go 498-542): integer targets receive the rounding mode (math.Round
when none was supplied), float targets go to floatToFloat. -/
def fromFloat (toK : NKind) (x : GoFloat) (mode : GoFloat → GoFloat) : GoNum :=
  if isSintK toK then .i toK (floatToSint toK x mode)
  else if isUintK toK then .i toK (floatToUint toK x mode)
  else .f toK (floatToFloat toK x)

/-- fromNumber (RUNK.go 139-163) on a built-in source type: integer
sources go through fromInt (RUNK.go 165-185) to fromSint or fromUint by
the source signedness, float sources to fromFloat. -/
def fromNumber (toK : NKind) (n : GoNum) (mode : GoFloat → GoFloat) : GoNum :=
  match n with
  | .i k v => if isSintK k then fromSint toK v else fromUint toK v
  | .f _ x => fromFloat toK x mode

/-- ConvertNumberBy (RUNK.go 654-695) on built-in number types: the
carrier/recover wrapper takes the direct branch that calls fromNumber with
the supplied rounding mode (no panic can occur on this branch). -/
def ConvertNumberBy (toK : NKind) (n : GoNum) (mode : GoFloat → GoFloat) : GoNum :=
  fromNumber toK n mode

/-- ConvertNumber (RUNK.go 650-652): ConvertNumberBy with the default
math.Round rounding mode. -/
def ConvertNumber (toK : NKind) (n : GoNum) : GoNum :=
  ConvertNumberBy toK n mathRound

/-- fromSint (RUNK.go 187-241) for a NAMED target type whose underlying
kind is toK: such a target misses every case of the direct type switch and
is classified by the reflect path.  The signed and float reflect cases are
complete, but the unsigned inner switch (RUNK.go 224-237) lists
reflect.Int16 — unreachable inside the reflect.Uint* outer case — where
reflect.Uint16 was evidently meant, so a named uint16-underlying target
matches no inner case and falls through to the unchecked `return To(from)`
(RUNK.go 240), the raw wrapping conversion. -/
def fromSintNamed (toK : NKind) (v : Int) : GoNum :=
  match toK with
  | .int | .int8 | .int16 | .int32 | .int64 => .i toK (sintToSint toK v)
  | .uint | .uint8 | .uint32 | .uint64 | .uintptr => .i toK (sintToUint toK v)
  | .uint16 => .i .uint16 (wrapI .uint16 v)
  | k => .f k (sintToFloat k v)

/-- fromUint (RUNK.go 317-371) for a NAMED target type: same structure and
the same dead reflect.Int16 case (RUNK.go 359), so a named
uint16-underlying target again falls through to the raw To(from). -/
def fromUintNamed (toK : NKind) (v : Int) : GoNum :=
  match toK with
  | .int | .int8 | .int16 | .int32 | .int64 => .i toK (uintToSint toK v)
  | .uint | .uint8 | .uint32 | .uint64 | .uintptr => .i toK (uintToUint toK v)
  | .uint16 => .i .uint16 (wrapI .uint16 v)
  | k => .f k (uintToFloat k v)

/-- fromFloat (RUNK.go 439-496) for a NAMED integer target type: the dead
reflect.Int16 case (RUNK.go 484) again leaves the uint16-underlying target
to the raw `return To(from)` — for that target the Go float-to-integer
conversion, castFloatToI here.  (A named float target also falls through to
To(from); that branch is modelled with floatToFloat, which is exactly the
raw conversion.) -/
def fromFloatNamed (toK : NKind) (x : GoFloat) (mode : GoFloat → GoFloat) : GoNum :=
  match toK with
  | .int | .int8 | .int16 | .int32 | .int64 => .i toK (floatToSint toK x mode)
  | .uint | .uint8 | .uint32 | .uint64 | .uintptr => .i toK (floatToUint toK x mode)
  | .uint16 => .i .uint16 (castFloatToI .uint16 x)
  | k => .f k (floatToFloat k x)

/-- Modelled from the spec: utils.Convert lives in the external module
github.com/Patrick-ring-motive/utils and is not under src/; the spec
describes it as the last-resort "best-effort same-width reinterpretation
without range checking" (fallback policy of section 4.2 and the design
notes).  For a number argument it is therefore the raw unchecked Go
conversion: wrapping for integer targets, the native float conversions
otherwise. -/
def utilsConvert (toK : NKind) (n : GoNum) : GoNum :=
  match n with
  | .i _ v =>
    if isIntK toK then .i toK (wrapI toK v) else .f toK (sintToFloat toK v)
  | .f _ x =>
    if isIntK toK then .i toK (castFloatToI toK x) else .f toK (floatToFloat toK x)

/-- ConvertNum (RUNK.go 586-640): the any-typed entry point.  Every
built-in numeric dynamic type returns ConvertNumber of the value — except
the `case uint:` branch (RUNK.go 601-602), which computes
ConvertNumber[To](v) but has no return statement, so control falls out of
the type switch to the final `return utils.Convert[To](f)` (RUNK.go 639). -/
def ConvertNum (toK : NKind) (n : GoNum) : GoNum :=
  match n with
  | .i .uint v => utilsConvert toK (.i .uint v)
  | n => ConvertNumber toK n

/-- Max (RUNK.go 806-814) at an integer kind: fold over the list, seeded
with MinNum of the kind, replacing the accumulator only on strictly
greater elements. -/
def MaxI (k : NKind) (l : List Int) : Int :=
  l.foldl (fun mx num => if num > mx then num else mx) (MinNumI k)

/-- Min (RUNK.go 821-829) at an integer kind: seeded with MaxNum,
replacing only on strictly smaller elements. -/
def MinI (k : NKind) (l : List Int) : Int :=
  l.foldl (fun mn num => if num < mn then num else mn) (MaxNumI k)

/-- Max (RUNK.go 806-814) at a float kind: the seed is MinNum of the kind,
which for the float kinds is the finite -MaxFloat32 / -MaxFloat64, and the
comparison is the Go float >, false on NaN. -/
def MaxF (k : NKind) (l : List GoFloat) : GoFloat :=
  l.foldl (fun mx num => if gfGT num mx then num else mx) (.finite (kindMinQ k))

/-- Min (RUNK.go 821-829) at a float kind. -/
def MinF (k : NKind) (l : List GoFloat) : GoFloat :=
  l.foldl (fun mn num => if gfLT num mn then num else mn) (.finite (kindMaxQ k))

/-- Abs (RUNK.go 831-836) at an integer kind: `if num < 0 { return -num }`
— the Go negation of a fixed-width integer wraps, hence wrapI. -/
def AbsI (k : NKind) (v : Int) : Int :=
  if v < 0 then wrapI k (-v) else v

/-- Abs (RUNK.go 831-836) at a float kind. -/
def AbsF (x : GoFloat) : GoFloat :=
  if gfLT x (.finite 0) then gfNeg x else x

/-- The external real-valued math provider (the std math package), reduced
to the functions the claims mention.  Each field is the provider's
function on float64, as an abstract parameter of the development. -/
structure MathProvider where
  gammaF : GoFloat → GoFloat
  ilogbF : GoFloat → Int
  sinF : GoFloat → GoFloat

/-- The widening float64(num) that every wrapper applies to its generic
argument. -/
def toF64 : GoNum → GoFloat
  | .f _ x => x
  | .i _ v => .finite (f64ofInt v)

/-- Ilogb (RUNK.go 954-956): the body is
`ConvertNumber[N](math.Gamma(float64(num)))` — it invokes the provider's
Gamma, not its Ilogb. -/
def Ilogb (p : MathProvider) (toK : NKind) (n : GoNum) : GoNum :=
  ConvertNumber toK (.f .float64 (p.gammaF (toF64 n)))

/-- Sin (RUNK.go 1067-1069): `ConvertNumber[N](math.Sin(float64(num)))`. -/
def Sin (p : MathProvider) (toK : NKind) (n : GoNum) : GoNum :=
  ConvertNumber toK (.f .float64 (p.sinF (toF64 n)))

/-- A well-formed runtime value: an integer-kind value inside its kind's
range, or a float-kind value that, for float32, is representable at
float32 precision (narrowing fixes it).  A float64-kind value may carry
any rational: the engine only consumes it, and every claim's statement
holds on this superset of the true float64 values. -/
def WellFormed : GoNum → Prop
  | .i k v => isIntK k = true ∧ inRangeI k v
  | .f k x => isFloatK k = true ∧ (k = .float32 → narrow32 x = x)

instance (n : GoNum) : Decidable (WellFormed n) := by
  cases n <;> simp only [WellFormed] <;> infer_instance

/-- The kind of a runtime value. -/
def kindOf : GoNum → NKind
  | .i k _ => k
  | .f k _ => k

/-- The integer payload of a runtime value (0 for float values); the
conversion engine returns an integer-kind value whenever the target kind
is an integer kind, so this is the converted integer result there. -/
def resI : GoNum → Int
  | .i _ v => v
  | .f _ _ => 0

/-- Range inclusion of kinds in the canonical rational comparison domain:
the range of a is contained in the range of b. -/
def rangeIncl (a b : NKind) : Bool :=
  decide (kindMinQ b ≤ kindMinQ a) && decide (kindMaxQ a ≤ kindMaxQ b)

/-- The value is exactly representable in kind b: for a float target the
appropriate IEEE rounding fixes it; integer targets represent every
integer of their range exactly, so no extra condition is needed there
beyond range inclusion. -/
def exactIn (b : NKind) : GoNum → Bool
  | .i _ v =>
    if b = .float32 then roundIntSig 24 v == v
    else if b = .float64 then roundIntSig 53 v == v
    else true
  | .f _ x => if b = .float32 then narrow32 x == x else true

/-- Modelled from the spec: a point model of the external math provider at
the input 8 — the real provider's Gamma(8) = 7! = 5040 (exactly
representable) and Ilogb(8) = 3.  Only these two table entries are used. -/
def providerAt8 : MathProvider where
  gammaF := fun x => if x = .finite 8 then .finite 5040 else x
  ilogbF := fun x => if x = .finite 8 then 3 else 0
  sinF := fun x => x

/-- The exact rational value of the Go float64 literal 1e300 (the IEEE
round-to-nearest-even float64 closest to 10^300). -/
def f1e300 : ℚ := roundQPrec 53 (-1022) ((10 ^ 300 : ℕ) : ℚ)

/-! Small facts about the bound tables, proved by enumerating the kinds. -/

theorem minI_nonpos (k : NKind) (hk : isIntK k = true) : MinNumI k ≤ 0 := by
  revert hk; cases k <;> decide

theorem maxI_nonneg (k : NKind) (hk : isIntK k = true) : 0 ≤ MaxNumI k := by
  revert hk; cases k <;> decide

theorem uint_min_zero (k : NKind) (hk : isUintK k = true) : MinNumI k = 0 := by
  revert hk; cases k <;> decide

theorem sint_min_neg (k : NKind) (hk : isSintK k = true) : MinNumI k < 0 := by
  revert hk; cases k <;> decide

theorem sint_isInt (k : NKind) (hk : isSintK k = true) : isIntK k = true := by
  revert hk; cases k <;> decide

theorem uint_isInt (k : NKind) (hk : isUintK k = true) : isIntK k = true := by
  revert hk; cases k <;> decide

theorem int_class (k : NKind) (hk : isIntK k = true) :
    isSintK k = true ∨ isUintK k = true := by
  revert hk; cases k <;> decide

/-- For a signed kind, the wrapped Go negation of an in-range negative
value is the natural negation, except at the kind's minimum, which wraps
to itself. -/
theorem wrapI_neg_signed (k : NKind) (hk : isSintK k = true) (v : Int)
    (h1 : MinNumI k ≤ v) (h0 : v < 0) :
    wrapI k (-v) = if v = MinNumI k then MinNumI k else -v := by
  cases k <;> first
    | exact absurd hk (by decide)
    | (simp only [wrapI, bitsOf, isSintK, MinNumI] at *
       norm_num
       split_ifs <;> omega)

theorem uint_not_sint (k : NKind) (hk : isUintK k = true) : isSintK k = false := by
  revert hk; cases k <;> decide

/-! Every integer-target branch of the engine produces an in-range value. -/

theorem castFloatToI_inRange (k : NKind) (hk : isIntK k = true) (x : GoFloat) :
    inRangeI k (castFloatToI k x) := by
  have h1 := minI_nonpos k hk
  have h2 := maxI_nonneg k hk
  cases x <;> simp only [castFloatToI] <;> split_ifs <;> constructor <;> omega

theorem sintToSint_inRange (k : NKind) (hk : isIntK k = true) (v : Int) :
    inRangeI k (sintToSint k v) := by
  have h1 := minI_nonpos k hk
  have h2 := maxI_nonneg k hk
  simp only [sintToSint]
  split_ifs <;> constructor <;> omega

theorem sintToUint_inRange (k : NKind) (hk : isUintK k = true) (v : Int) :
    inRangeI k (sintToUint k v) := by
  have h0 := uint_min_zero k hk
  have h2 := maxI_nonneg k (uint_isInt k hk)
  simp only [sintToUint]
  split_ifs <;> constructor <;> omega

theorem uintToSint_inRange (k : NKind) (hk : isIntK k = true) (v : Int) (hv : 0 ≤ v) :
    inRangeI k (uintToSint k v) := by
  have h1 := minI_nonpos k hk
  have h2 := maxI_nonneg k hk
  simp only [uintToSint]
  split_ifs <;> constructor <;> omega

theorem uintToUint_inRange (k : NKind) (hk : isIntK k = true) (v : Int) (hv : 0 ≤ v) :
    inRangeI k (uintToUint k v) := by
  have h1 := minI_nonpos k hk
  have h2 := maxI_nonneg k hk
  simp only [uintToUint]
  split_ifs <;> constructor <;> omega

theorem floatToSint_inRange (k : NKind) (hk : isSintK k = true)
    (x : GoFloat) (mode : GoFloat → GoFloat) :
    inRangeI k (floatToSint k x mode) := by
  have hik := sint_isInt k hk
  have h1 := minI_nonpos k hik
  have h2 := maxI_nonneg k hik
  simp only [floatToSint]
  split_ifs
  · exact ⟨h1, h2⟩
  · exact ⟨by omega, le_refl _⟩
  · exact ⟨le_refl _, by omega⟩
  · exact castFloatToI_inRange k hik _

theorem floatToUint_inRange (k : NKind) (hk : isUintK k = true)
    (x : GoFloat) (mode : GoFloat → GoFloat) :
    inRangeI k (floatToUint k x mode) := by
  have hik := uint_isInt k hk
  have h1 := minI_nonpos k hik
  have h2 := maxI_nonneg k hik
  simp only [floatToUint]
  split_ifs
  · exact ⟨h1, h2⟩
  · exact ⟨by omega, le_refl _⟩
  · exact castFloatToI_inRange k hik _

/-! Exactness lemmas: the rounding helpers fix integer-valued rationals,
and the kind tables relate to their float64 images. -/

theorem qRoundHalfAway_intCast (v : Int) : qRoundHalfAway ((v : ℤ) : ℚ) = v := by
  unfold qRoundHalfAway
  have hhalf : ⌊(1 / 2 : ℚ)⌋ = 0 := by decide
  split_ifs with h
  · rw [Int.floor_int_add, hhalf, add_zero]
  · rw [show -((v : ℤ) : ℚ) = (((-v : ℤ)) : ℚ) by push_cast; ring]
    rw [Int.floor_int_add, hhalf, add_zero, neg_neg]

theorem qtrunc_intCast (v : Int) : qtrunc ((v : ℤ) : ℚ) = v := by
  unfold qtrunc
  split_ifs with h
  · exact Int.floor_intCast v
  · exact Int.ceil_intCast v

theorem castFloatToI_intCast (k : NKind) (v : Int) (h : inRangeI k v) :
    castFloatToI k (.finite ((v : ℤ) : ℚ)) = v := by
  simp only [castFloatToI, qtrunc_intCast]
  rw [if_pos ⟨h.1, h.2⟩]

/-- The float64 image of each integer kind's maximum is at least the
maximum, and of its minimum at most the minimum (rounding at the 64-bit
bounds moves outward: float64(2^63-1) = 2^63, float64(2^64-1) = 2^64). -/
theorem maxI_f64 (k : NKind) (hk : isIntK k = true) :
    (MaxNumI k : ℚ) ≤ f64ofInt (MaxNumI k) ∧ f64ofInt (MinNumI k) ≤ (MinNumI k : ℚ) := by
  revert hk; cases k <;> decide

theorem float_not_int (k : NKind) (hk : isFloatK k = true) :
    isSintK k = false ∧ isUintK k = false := by
  revert hk; cases k <;> decide

theorem float_kinds (k : NKind) (hk : isFloatK k = true) :
    k = .float32 ∨ k = .float64 := by
  revert hk; cases k <;> decide

theorem all_int_or_float (k : NKind) : isIntK k = true ∨ isFloatK k = true := by
  cases k <;> decide

set_option maxRecDepth 40000 in
/-- Range inclusion between integer kinds transfers the Int-level bounds. -/
theorem rangeIncl_int_bounds (a b : NKind) (ha : isIntK a = true)
    (hb : isIntK b = true) (hr : rangeIncl a b = true) :
    MinNumI b ≤ MinNumI a ∧ MaxNumI a ≤ MaxNumI b := by
  revert ha hb hr; cases a <;> cases b <;> decide

set_option maxRecDepth 40000 in
/-- A float source kind with its range included in that of the target
forces the target to be a float kind at least as wide. -/
theorem rangeIncl_float_src (a b : NKind) (ha : isFloatK a = true)
    (hr : rangeIncl a b = true) :
    (a = .float32 ∧ (b = .float32 ∨ b = .float64)) ∨
      (a = .float64 ∧ b = .float64) := by
  revert ha hr; cases a <;> cases b <;> decide

/-- An in-range integer value converts exactly between integer kinds. -/
theorem convert_i_exact (b k : NKind) (v : Int) (hs : isIntK k = true)
    (hb : isIntK b = true) (h1 : MinNumI b ≤ v) (h2 : v ≤ MaxNumI b) :
    ConvertNumber b (.i k v) = .i b v := by
  simp only [ConvertNumber, ConvertNumberBy, fromNumber]
  by_cases hss : isSintK k = true
  · rw [if_pos hss]
    simp only [fromSint]
    rcases int_class b hb with hbs | hbu
    · rw [if_pos hbs]
      simp only [sintToSint]
      rw [if_neg (by omega), if_neg (by omega)]
    · have hb0 := uint_min_zero b hbu
      rw [if_neg (by simp [uint_not_sint b hbu]), if_pos hbu]
      simp only [sintToUint]
      rw [if_neg (by omega), if_neg (by omega)]
  · rw [if_neg hss]
    simp only [fromUint]
    rcases int_class b hb with hbs | hbu
    · rw [if_pos hbs]
      simp only [uintToSint]
      rw [if_neg (by omega)]
    · rw [if_neg (by simp [uint_not_sint b hbu]), if_pos hbu]
      simp only [uintToUint]
      rw [if_neg (by omega)]

/-- An integer value that is exactly representable at the target float
width converts to exactly its rational value. -/
theorem convert_i_to_float (b k : NKind) (v : Int) (hs : isIntK k = true)
    (hb : isFloatK b = true)
    (he : roundIntSig (if b = .float32 then 24 else 53) v = v) :
    ConvertNumber b (.i k v) = .f b (.finite ((v : ℤ) : ℚ)) := by
  obtain ⟨hb1, hb2⟩ := float_not_int b hb
  simp only [ConvertNumber, ConvertNumberBy, fromNumber]
  by_cases hss : isSintK k = true
  · rw [if_pos hss]
    simp only [fromSint]
    rw [if_neg (by simp [hb1]), if_neg (by simp [hb2])]
    simp only [sintToFloat, he]
  · rw [if_neg hss]
    simp only [fromUint]
    rw [if_neg (by simp [hb1]), if_neg (by simp [hb2])]
    simp only [uintToFloat, sintToFloat, he]

/-- Converting a float value to a float target is the floatToFloat native
conversion. -/
theorem convert_f_to_float (b s : NKind) (x : GoFloat) (hb : isFloatK b = true) :
    ConvertNumber b (.f s x) = .f b (floatToFloat b x) := by
  obtain ⟨hb1, hb2⟩ := float_not_int b hb
  simp only [ConvertNumber, ConvertNumberBy, fromNumber, fromFloat]
  rw [if_neg (by simp [hb1]), if_neg (by simp [hb2])]

/-- A float value carrying an in-range integer converts to exactly that
integer at any integer target kind, under the default rounding mode. -/
theorem convert_f_int_exact (a s : NKind) (v : Int) (ha : isIntK a = true)
    (h1 : MinNumI a ≤ v) (h2 : v ≤ MaxNumI a) :
    ConvertNumber a (.f s (.finite ((v : ℤ) : ℚ))) = .i a v := by
  have hq := maxI_f64 a ha
  have hMx : ((v : ℤ) : ℚ) ≤ f64ofInt (MaxNumI a) :=
    le_trans (by exact_mod_cast h2) hq.1
  have hMn : f64ofInt (MinNumI a) ≤ ((v : ℤ) : ℚ) :=
    le_trans hq.2 (by exact_mod_cast h1)
  simp only [ConvertNumber, ConvertNumberBy, fromNumber, fromFloat]
  rcases int_class a ha with has | hau
  · rw [if_pos has]
    simp only [floatToSint, mathRound, qRoundHalfAway_intCast, gfIsNaN,
               gfIsPosInf, gfIsNegInf, gfGT, gfLT, Bool.false_eq_true, if_false,
               Bool.false_or, Bool.or_self, decide_eq_true_eq]
    rw [if_neg (not_lt.mpr hMx), if_neg (not_lt.mpr hMn)]
    rw [castFloatToI_intCast a v ⟨h1, h2⟩]
  · have ha0 := uint_min_zero a hau
    rw [if_neg (by simp [uint_not_sint a hau]), if_pos hau]
    have hv0 : (0 : ℚ) ≤ ((v : ℤ) : ℚ) := by exact_mod_cast ha0 ▸ h1
    simp only [floatToUint, mathRound, qRoundHalfAway_intCast, gfIsNaN,
               gfIsPosInf, gfIsNegInf, gfGT, gfLT, Bool.false_eq_true, if_false,
               Bool.false_or, Bool.or_self, decide_eq_true_eq]
    rw [if_neg (not_lt.mpr hv0), if_neg (not_lt.mpr hMx)]
    rw [castFloatToI_intCast a v ⟨h1, h2⟩]

section ClaimTheorems

/-- Claim C1: for every integer target Kind T, converting a floating
not-a-number value yields integer 0, converting positive infinity yields
maxOf(T), and converting negative infinity yields minOf(T).  There is no
error channel: the engine is a total function.  (floatToSint, RUNK.go
544-561, and floatToUint, RUNK.go 563-575, via fromNumber.) -/
theorem c1_special_values (t s : NKind) (ht : isIntK t = true) (hs : isFloatK s = true) :
    ConvertNumber t (.f s .nan) = .i t 0 ∧
    ConvertNumber t (.f s .posInf) = .i t (MaxNumI t) ∧
    ConvertNumber t (.f s .negInf) = .i t (MinNumI t) := by
  revert ht hs
  cases t <;> cases s <;> decide

/-- Witness for C1 at T = int8, source kind float64. -/
theorem c1_special_values_witness :
    isIntK .int8 = true ∧ isFloatK .float64 = true ∧
    (ConvertNumber .int8 (.f .float64 .nan) = .i .int8 0 ∧
     ConvertNumber .int8 (.f .float64 .posInf) = .i .int8 (MaxNumI .int8) ∧
     ConvertNumber .int8 (.f .float64 .negInf) = .i .int8 (MinNumI .int8)) :=
  ⟨by decide, by decide, c1_special_values .int8 .float64 (by decide) (by decide)⟩

/-- Claim C2 (code bug): the rounding policy does apply to signed targets
(2.5 to int gives 3, -2.5 gives -3, a substituted round-to-even policy
gives 2), but for an unsigned target the engine returns the truncated
source value, not the rounded value: converting 2.5 to uint16 yields 2
although the rounded value 3 is in range.  floatToUint (RUNK.go 574)
returns To(from) where its own bound checks use r and the package
documentation (RUNK.go 648) promises rounding by default. -/
theorem c2_default_rounding_unsigned_truncates :
    ConvertNumber .int (.f .float64 (.finite (5 / 2))) = .i .int 3 ∧
    ConvertNumber .int (.f .float64 (.finite (-5 / 2))) = .i .int (-3) ∧
    ConvertNumberBy .int (.f .float64 (.finite (5 / 2))) mathRoundToEven = .i .int 2 ∧
    mathRound (.finite (5 / 2)) = .finite 3 ∧
    ConvertNumber .uint16 (.f .float64 (.finite (5 / 2))) = .i .uint16 2 := by
  decide

/-- Claim C6 (code bug): for a 64-bit floating Kind the wrapper returns
the provider function's exact output — but Ilogb (RUNK.go 954-956)
invokes the provider's Gamma, not its Ilogb: on the input 8 it returns
Gamma(8) = 5040 while the provider's Ilogb(8) is 3.  (Sin, RUNK.go
1067-1069, does invoke the provider's Sin and reproduces it exactly.) -/
theorem c6_ilogb_invokes_gamma :
    (∀ (p : MathProvider) (x : GoFloat),
      Ilogb p .float64 (.f .float64 x) = .f .float64 (p.gammaF x) ∧
      Sin p .float64 (.f .float64 x) = .f .float64 (p.sinF x)) ∧
    Ilogb providerAt8 .float64 (.f .float64 (.finite 8)) = .f .float64 (.finite 5040) ∧
    providerAt8.ilogbF (.finite 8) = 3 ∧
    GoFloat.finite 5040 ≠ GoFloat.finite 3 := by
  refine ⟨fun p x => ⟨rfl, rfl⟩, by decide, by decide, by decide⟩

/-- Claim C7 (code bug): a named type with underlying 16-bit unsigned
representation does NOT saturate like plain uint16.  The reflect-path
inner switches of fromSint (RUNK.go 229), fromUint (RUNK.go 359) and
fromFloat (RUNK.go 484) list the unreachable reflect.Int16 where
reflect.Uint16 was meant, so a named uint16 target falls through to the
unchecked To(from): converting int64 70000 gives the wrapped 4464 instead
of the saturated 65535.  Other named unsigned widths (for example uint8)
do take the saturating path. -/
theorem c7_named_uint16_not_saturating :
    fromSintNamed .uint16 70000 = .i .uint16 4464 ∧
    fromSint .uint16 70000 = .i .uint16 65535 ∧
    fromUintNamed .uint16 70000 = .i .uint16 4464 ∧
    fromUint .uint16 70000 = .i .uint16 65535 ∧
    (∀ v : Int, fromSintNamed .uint8 v = fromSint .uint8 v) ∧
    (∀ v : Int, fromUintNamed .uint8 v = fromUint .uint8 v) := by
  refine ⟨by decide, by decide, by decide, by decide, fun v => rfl, fun v => rfl⟩

/-- Claim C10: the uint case of ConvertNum (RUNK.go 601-602) computes
ConvertNumber but falls through without returning it, so a uint argument
is produced by the final unchecked utils.Convert fallback; at the uint
value 300 with target uint8, ConvertNum gives the wrapped 44 while the
saturating ConvertNumber gives 255. -/
theorem c10_convertnum_uint_fallthrough :
    (∀ (toK : NKind) (v : Int), ConvertNum toK (.i .uint v) = utilsConvert toK (.i .uint v)) ∧
    MaxNumI .uint8 < (300 : Int) ∧
    ConvertNum .uint8 (.i .uint 300) = .i .uint8 44 ∧
    ConvertNumber .uint8 (.i .uint 300) = .i .uint8 255 ∧
    ConvertNum .uint8 (.i .uint 300) ≠ ConvertNumber .uint8 (.i .uint 300) := by
  refine ⟨fun _ _ => rfl, by decide, by decide, by decide, by decide⟩

/-- Claim C8, counterexample: over the float64 Kind the single-element
sequence containing negative infinity does not return its element — Max
seeds the fold with MinNum (the finite -MaxFloat64) and -Inf compares
below the seed, so the seed bound is returned instead. -/
theorem c8_single_element_counterexample :
    MaxF .float64 [GoFloat.negInf] ≠ GoFloat.negInf := by decide

/-- Claim C8 as amended: Max and Min return the element of a
single-element sequence for every integer Kind and, at the float Kinds,
whenever the element is finite and within the Kind's bounds; over the
signed 32-bit sequence [3, -7, 2] Max returns 3 and Min returns -7.  The
fold is seeded with the Kind's minimum/maximum bound and replaces only on
strict comparison, as claimed; only the universal single-element identity
had to be restricted, because a NaN or a wrong-signed infinite element
compares false against the seed. -/
theorem c8_reductions_amended :
    (∀ k : NKind, isIntK k = true → ∀ v : Int, inRangeI k v →
      MaxI k [v] = v ∧ MinI k [v] = v) ∧
    (∀ k : NKind, isFloatK k = true → ∀ q : ℚ,
      kindMinQ k ≤ q → q ≤ kindMaxQ k →
      MaxF k [.finite q] = .finite q ∧ MinF k [.finite q] = .finite q) ∧
    MaxI .int32 [3, -7, 2] = 3 ∧ MinI .int32 [3, -7, 2] = -7 := by
  refine ⟨?_, ?_, by decide, by decide⟩
  · intro k hk v hv
    obtain ⟨h1, h2⟩ := hv
    constructor
    · simp only [MaxI, List.foldl]
      split_ifs <;> omega
    · simp only [MinI, List.foldl]
      split_ifs <;> omega
  · intro k hk q h1 h2
    constructor
    · simp only [MaxF, List.foldl, gfGT, gfLT]
      split_ifs with h
      · rfl
      · have hle : q ≤ kindMinQ k := not_lt.mp (by simpa using h)
        exact congrArg GoFloat.finite (le_antisymm h1 hle)
    · simp only [MinF, List.foldl, gfLT]
      split_ifs with h
      · rfl
      · have hle : kindMaxQ k ≤ q := not_lt.mp (by simpa using h)
        exact congrArg GoFloat.finite (le_antisymm hle h2)

/-- Witness for the amended C8 at the int32 single-element sequence [5]. -/
theorem c8_reductions_amended_witness :
    isIntK .int32 = true ∧ inRangeI .int32 5 ∧
    (MaxI .int32 [5] = 5 ∧ MinI .int32 [5] = 5) :=
  ⟨by decide, by decide, c8_reductions_amended.1 .int32 (by decide) 5 (by decide)⟩

/-- Claim C9: Abs negates inputs strictly below the kind's zero and
returns other inputs unchanged.  On signed kinds the result is the
natural absolute value except at the most-negative value, whose negation
wraps to itself in fixed-width arithmetic (int8: Abs(-128) = -128);
unsigned inputs come back unchanged; finite floats get the exact absolute
value; Abs(-5) = 5 and Abs(5) = 5. -/
theorem c9_abs_characterization :
    (∀ k : NKind, isSintK k = true → ∀ v : Int, inRangeI k v →
      AbsI k v = if v = MinNumI k then MinNumI k else |v|) ∧
    (∀ k : NKind, isUintK k = true → ∀ v : Int, inRangeI k v → AbsI k v = v) ∧
    (∀ q : ℚ, AbsF (.finite q) = .finite |q|) ∧
    AbsI .int 5 = 5 ∧ AbsI .int (-5) = 5 ∧ AbsI .int8 (-128) = -128 := by
  refine ⟨?_, ?_, ?_, by decide, by decide, by decide⟩
  · intro k hk v hv
    obtain ⟨h1, h2⟩ := hv
    rcases lt_or_le v 0 with h0 | h0
    · rw [abs_of_neg h0]
      simp only [AbsI, if_pos h0]
      exact wrapI_neg_signed k hk v h1 h0
    · rw [abs_of_nonneg h0]
      have hmin := sint_min_neg k hk
      simp only [AbsI]
      rw [if_neg (by omega), if_neg (by omega)]
  · intro k hk v hv
    obtain ⟨h1, h2⟩ := hv
    have h0 := uint_min_zero k hk
    simp only [AbsI]
    rw [if_neg (by omega)]
  · intro q
    simp only [AbsF, gfLT, gfNeg]
    split_ifs with h
    · rw [abs_of_neg (by simpa using h)]
    · rw [abs_of_nonneg (not_lt.mp (by simpa using h))]

/-- Witness for C9 at int8 and the most-negative value -128. -/
theorem c9_abs_characterization_witness :
    isSintK .int8 = true ∧ inRangeI .int8 (-128) ∧
    AbsI .int8 (-128) =
      if (-128 : Int) = MinNumI .int8 then MinNumI .int8 else |(-128 : Int)| :=
  ⟨by decide, by decide,
    c9_abs_characterization.1 .int8 (by decide) (-128) (by decide)⟩

set_option maxRecDepth 40000 in
/-- Claim C3: for every integer target Kind T and every well-formed source
value of any supported Kind, the converted result lies between minOf(T)
and maxOf(T) inclusive; in particular the float64 value 1e300 converts to
int8 as 127 and -1e300 as -128. -/
theorem c3_saturation_invariant :
    (∀ t : NKind, isIntK t = true → ∀ n : GoNum, WellFormed n →
      inRangeI t (resI (ConvertNumber t n))) ∧
    ConvertNumber .int8 (.f .float64 (.finite f1e300)) = .i .int8 127 ∧
    ConvertNumber .int8 (.f .float64 (.finite (-f1e300))) = .i .int8 (-128) := by
  refine ⟨?_, by decide, by decide⟩
  intro t ht n hn
  cases n with
  | i k v =>
    obtain ⟨hik, hv1, hv2⟩ := hn
    simp only [ConvertNumber, ConvertNumberBy, fromNumber]
    by_cases hss : isSintK k = true
    · rw [if_pos hss]
      simp only [fromSint]
      rcases int_class t ht with hts | htu
      · rw [if_pos hts]
        exact sintToSint_inRange t ht v
      · rw [if_neg (by simp [uint_not_sint t htu]), if_pos htu]
        exact sintToUint_inRange t htu v
    · rw [if_neg hss]
      have hsu : isUintK k = true :=
        (int_class k hik).resolve_left (by simpa using hss)
      have hv0 : 0 ≤ v := by have := uint_min_zero k hsu; omega
      simp only [fromUint]
      rcases int_class t ht with hts | htu
      · rw [if_pos hts]
        exact uintToSint_inRange t ht v hv0
      · rw [if_neg (by simp [uint_not_sint t htu]), if_pos htu]
        exact uintToUint_inRange t ht v hv0
  | f k x =>
    simp only [ConvertNumber, ConvertNumberBy, fromNumber, fromFloat]
    rcases int_class t ht with hts | htu
    · rw [if_pos hts]
      exact floatToSint_inRange t hts x mathRound
    · rw [if_neg (by simp [uint_not_sint t htu]), if_pos htu]
      exact floatToUint_inRange t htu x mathRound

/-- Witness for C3 at T = int8 and the float64 source 1e300. -/
theorem c3_saturation_invariant_witness :
    isIntK .int8 = true ∧ WellFormed (GoNum.f .float64 (.finite f1e300)) ∧
    inRangeI .int8 (resI (ConvertNumber .int8 (.f .float64 (.finite f1e300)))) :=
  ⟨by decide, by decide,
    c3_saturation_invariant.1 .int8 (by decide) _ (by decide)⟩

/-- Claim C4: integer-to-integer conversion saturates: a source above the
target maximum gives the target maximum, a source below the target
minimum gives the target minimum (for an unsigned target that minimum is
0, which is what every negative signed source receives), and an in-range
source converts exactly. -/
theorem c4_int_to_int (s t : NKind) (hs : isIntK s = true) (ht : isIntK t = true)
    (v : Int) (hv : inRangeI s v) :
    (MaxNumI t < v → ConvertNumber t (.i s v) = .i t (MaxNumI t)) ∧
    (v < MinNumI t → ConvertNumber t (.i s v) = .i t (MinNumI t)) ∧
    (MinNumI t ≤ v → v ≤ MaxNumI t → ConvertNumber t (.i s v) = .i t v) := by
  obtain ⟨hv1, hv2⟩ := hv
  have htmax := maxI_nonneg t ht
  have htmin := minI_nonpos t ht
  simp only [ConvertNumber, ConvertNumberBy, fromNumber]
  by_cases hss : isSintK s = true
  · rw [if_pos hss]
    simp only [fromSint]
    rcases int_class t ht with hts | htu
    · rw [if_pos hts]
      simp only [sintToSint]
      refine ⟨fun h => ?_, fun h => ?_, fun ha hb => ?_⟩ <;>
        split_ifs <;>
        first
          | rfl
          | (exact congrArg (GoNum.i t) (by omega))
          | (exfalso; omega)
    · rw [if_neg (by simp [uint_not_sint t htu]), if_pos htu]
      have ht0 := uint_min_zero t htu
      simp only [sintToUint]
      refine ⟨fun h => ?_, fun h => ?_, fun ha hb => ?_⟩ <;>
        split_ifs <;>
        first
          | rfl
          | (exact congrArg (GoNum.i t) (by omega))
          | (exfalso; omega)
  · rw [if_neg hss]
    have hsu : isUintK s = true :=
      (int_class s hs).resolve_left (by simpa using hss)
    have hs0 := uint_min_zero s hsu
    simp only [fromUint]
    rcases int_class t ht with hts | htu
    · rw [if_pos hts]
      simp only [uintToSint]
      refine ⟨fun h => ?_, fun h => ?_, fun ha hb => ?_⟩ <;>
        split_ifs <;>
        first
          | rfl
          | (exact congrArg (GoNum.i t) (by omega))
          | (exfalso; omega)
    · rw [if_neg (by simp [uint_not_sint t htu]), if_pos htu]
      have ht0 := uint_min_zero t htu
      simp only [uintToUint]
      refine ⟨fun h => ?_, fun h => ?_, fun ha hb => ?_⟩ <;>
        split_ifs <;>
        first
          | rfl
          | (exact congrArg (GoNum.i t) (by omega))
          | (exfalso; omega)

/-- Witness for C4: int32 source 300 saturates to the uint8 maximum 255,
and in-range/negative behaviour at the same kinds follows from the same
instance. -/
theorem c4_int_to_int_witness :
    isIntK .int32 = true ∧ isIntK .uint8 = true ∧ inRangeI .int32 300 ∧
    MaxNumI .uint8 < 300 ∧
    ConvertNumber .uint8 (.i .int32 300) = .i .uint8 (MaxNumI .uint8) :=
  ⟨by decide, by decide, by decide, by decide,
    (c4_int_to_int .int32 .uint8 (by decide) (by decide) 300 (by decide)).1
      (by decide)⟩

set_option maxRecDepth 40000 in
/-- Claim C5, counterexample: the ranges of int64 are contained in those
of float64, yet the int64 value 2^62 + 1 does not round-trip through
float64 — its float64 image rounds to 2^62 (53-bit significand), which
converts back to 2^62. -/
theorem c5_roundtrip_counterexample :
    rangeIncl .int64 .float64 = true ∧
    WellFormed (GoNum.i .int64 (2 ^ 62 + 1)) ∧
    ConvertNumber .int64 (ConvertNumber .float64 (.i .int64 (2 ^ 62 + 1))) ≠
      .i .int64 (2 ^ 62 + 1) := by
  refine ⟨by decide, by decide, by decide⟩

/-- Claim C5 as amended: for every pair of supported Kinds (A, B) such
that A's range is contained in B's range, and every well-formed value v of
A that is exactly representable in B, convert(convert(v, B), A) = v.  (The
exact-representability condition is forced: an integer wider than the
target float significand loses precision, as the counterexample shows.) -/
theorem c5_roundtrip_amended (a b : NKind) (n : GoNum) (hw : WellFormed n)
    (hk : kindOf n = a) (hr : rangeIncl a b = true) (he : exactIn b n = true) :
    ConvertNumber a (ConvertNumber b n) = n := by
  cases n with
  | i k v =>
    have hka : k = a := hk
    subst hka
    obtain ⟨hik, hv1, hv2⟩ := hw
    rcases all_int_or_float b with hbInt | hbFl
    · obtain ⟨hbm, hbM⟩ := rangeIncl_int_bounds k b hik hbInt hr
      rw [convert_i_exact b k v hik hbInt (by omega) (by omega)]
      exact convert_i_exact k b v hbInt hik hv1 hv2
    · rcases float_kinds b hbFl with rfl | rfl
      · have hee : roundIntSig 24 v = v := by simpa [exactIn] using he
        rw [convert_i_to_float .float32 k v hik (by decide) (by simpa using hee)]
        exact convert_f_int_exact k .float32 v hik hv1 hv2
      · have hee : roundIntSig 53 v = v := by simpa [exactIn] using he
        rw [convert_i_to_float .float64 k v hik (by decide) (by simpa using hee)]
        exact convert_f_int_exact k .float64 v hik hv1 hv2
  | f k x =>
    have hka : k = a := hk
    subst hka
    obtain ⟨hfk, h32⟩ := hw
    rcases rangeIncl_float_src k b hfk hr with ⟨rfl, hb⟩ | ⟨rfl, rfl⟩
    · have hx : narrow32 x = x := h32 rfl
      rcases hb with rfl | rfl
      · rw [convert_f_to_float .float32 .float32 x (by decide)]
        rw [show floatToFloat .float32 x = x from by simp [floatToFloat, hx]]
        rw [convert_f_to_float .float32 .float32 x (by decide)]
        rw [show floatToFloat .float32 x = x from by simp [floatToFloat, hx]]
      · rw [convert_f_to_float .float64 .float32 x (by decide)]
        rw [show floatToFloat .float64 x = x from rfl]
        rw [convert_f_to_float .float32 .float64 x (by decide)]
        rw [show floatToFloat .float32 x = x from by simp [floatToFloat, hx]]
    · rw [convert_f_to_float .float64 .float64 x (by decide)]
      rw [show floatToFloat .float64 x = x from rfl]
      rw [convert_f_to_float .float64 .float64 x (by decide)]
      rw [show floatToFloat .float64 x = x from rfl]

/-- Witness for the amended C5: the int8 value -5 round-trips through
int16. -/
theorem c5_roundtrip_amended_witness :
    WellFormed (GoNum.i .int8 (-5)) ∧ kindOf (GoNum.i .int8 (-5)) = .int8 ∧
    rangeIncl .int8 .int16 = true ∧ exactIn .int16 (GoNum.i .int8 (-5)) = true ∧
    ConvertNumber .int8 (ConvertNumber .int16 (.i .int8 (-5))) = .i .int8 (-5) :=
  ⟨by decide, rfl, by decide, by decide,
    c5_roundtrip_amended .int8 .int16 (.i .int8 (-5)) (by decide) rfl
      (by decide) (by decide)⟩

end ClaimTheorems

end RUNK
